import Mathlib

/-!
# Verification of the ping wrapper and its specified ICMP echo core

This file shallowly embeds the repository's program (`src/c++/pingadd.cpp`), a
wrapper that runs the system `ping` utility through `popen` and scans its text
output with two ECMAScript regexes, and, alongside it, the ICMP echo engine
(packet codec and echo session state machine) that the specification defines as
the program's replacement core.  Theorems at the end settle the claimed
properties of both.
-/

namespace PingWrapper

/-! ## Character classes used by the two regexes

`[0-9]` and `\s` as interpreted by `std::regex` in ECMAScript mode. -/

def isDigitCh (c : Char) : Bool := '0' ≤ c && c ≤ '9'

def isWsCh (c : Char) : Bool :=
  c = ' ' || c = '\t' || c = '\n' || c = '\r' || c = '\x0B' || c = '\x0C'

/-- Split the maximal run of `[0-9]` characters off the front of a string. -/
def splitDigits : List Char → List Char × List Char
  | [] => ([], [])
  | c :: cs =>
    if isDigitCh c then
      let p := splitDigits cs
      (c :: p.1, p.2)
    else ([], c :: cs)

/-- Backtracking over a greedy character-class run: `tkRev` is the portion
currently consumed by the quantifier (reversed), `rest` the remainder.  Tries
the continuation `test` on the longest consumption first and shrinks one
character at a time, never below `lo` characters (`lo = 1` models `+`,
`lo = 0` models `*`). -/
def tryShrinkAux {α : Type} (lo : Nat) (test : List Char → List Char → Option α) :
    List Char → List Char → Option α
  | tkRev, rest =>
    match test tkRev.reverse rest with
    | some a => some a
    | none =>
      match tkRev with
      | [] => none
      | c :: tkRev2 =>
        if tkRev2.length + 1 ≤ lo then none
        else tryShrinkAux lo test tkRev2 (c :: rest)

def tryShrink {α : Type} (lo : Nat) (test : List Char → List Char → Option α)
    (run rest : List Char) : Option α :=
  tryShrinkAux lo test run.reverse rest

/-- Does the string start with the literal `ms`? -/
def startsWithMs : List Char → Bool
  | 'm' :: 's' :: _ => true
  | _ => false

/-- The tail `\s?ms` of the first regex (greedy optional whitespace, then the
literal `ms`). -/
def timeSuffixOk (cs : List Char) : Bool :=
  (match cs with
   | c :: rest => isWsCh c && startsWithMs rest
   | [] => false) ||
  startsWithMs cs

/-- Match `([0-9]+\.?[0-9]*)\s?ms` at the start of `cs` (the part of regex
`time=([0-9]+\.?[0-9]*)\s?ms` after the literal), in ECMAScript greedy
backtracking order, returning the group-1 capture. -/
def matchTimeNum (cs : List Char) : Option (List Char) :=
  let p := splitDigits cs
  if p.1.isEmpty then none
  else
    tryShrink 1 (fun d1 r1 =>
      let withDot : Option (List Char) :=
        match r1 with
        | '.' :: r2 =>
          let q := splitDigits r2
          tryShrink 0 (fun d2 r3 =>
            if timeSuffixOk r3 then some (d1 ++ '.' :: d2) else none) q.1 q.2
        | _ => none
      match withDot with
      | some cap => some cap
      | none =>
        let q := splitDigits r1
        tryShrink 0 (fun d2 r3 =>
          if timeSuffixOk r3 then some (d1 ++ d2) else none) q.1 q.2) p.1 p.2

/-- Match `([0-9]+)ms` at the start of `cs` (the part of regex
`Average = ([0-9]+)ms` after the literal), returning the group-1 capture. -/
def matchAvgNum (cs : List Char) : Option (List Char) :=
  let p := splitDigits cs
  if p.1.isEmpty then none
  else tryShrink 1 (fun d1 r1 => if startsWithMs r1 then some d1 else none) p.1 p.2

/-- Drop the literal `lit` off the front of a string, or fail. -/
def dropLit : List Char → List Char → Option (List Char)
  | [], cs => some cs
  | _ :: _, [] => none
  | p :: ps, c :: cs => if c = p then dropLit ps cs else none

/-- Model of `std::regex_search` for a pattern of the shape `lit` followed by a number
matcher `num`: scan start positions left to right, at each try the literal and
then the rest of the pattern, and return the first (leftmost) capture. -/
def searchWith (lit : List Char) (num : List Char → Option (List Char)) :
    List Char → Option (List Char)
  | [] =>
    match dropLit lit [] with
    | some r => num r
    | none => none
  | c :: cs =>
    match dropLit lit (c :: cs) with
    | some r =>
      match num r with
      | some cap => some cap
      | none => searchWith lit num cs
    | none => searchWith lit num cs

/-- The call `regex_search(result, m, r_time)` with `r_time = time=([0-9]+\.?[0-9]*)\s?ms`,
returning `m[1]` on success. -/
def regexSearchTime (s : String) : Option String :=
  (searchWith "time=".data matchTimeNum s.data).map String.mk

/-- The call `regex_search(result, m, r_time_win)` with `r_time_win = Average = ([0-9]+)ms`,
returning `m[1]` on success. -/
def regexSearchAvg (s : String) : Option String :=
  (searchWith "Average = ".data matchAvgNum s.data).map String.mk

/-! ## The program's `main` -/

/-- The shell command built on line 22 of `pingadd.cpp`. -/
def buildCommand (host : String) : String := "ping -c 1 " ++ host ++ " 2>&1"

/-- Observable outcome of one run of the program: process exit code, text
written to the standard streams, and the command handed to `popen` (if any). -/
structure MainOutcome where
  exitCode : Nat
  stdoutText : String
  stderrText : String
  command : Option String
  deriving Repr, DecidableEq

/-- Function `main` of `pingadd.cpp`.  `argv` is the argument vector; `popenCapture`
models `popen` plus the `fgets` loop: given the command string it returns
`none` when `popen` fails and otherwise the captured output text. -/
def pingMain (argv : List String) (popenCapture : String → Option String) : MainOutcome :=
  if argv.length ≠ 2 then
    { exitCode := 1, stdoutText := ""
      stderrText := "Usage: " ++ argv.headD "" ++ " <host-or-ip>\n", command := none }
  else
    let host := argv.getD 1 ""
    let cmd := buildCommand host
    match popenCapture cmd with
    | none =>
      { exitCode := 1, stdoutText := ""
        stderrText := "Failed to run ping command\n", command := some cmd }
    | some result =>
      match regexSearchTime result with
      | some t =>
        { exitCode := 0
          stdoutText := "Reply from " ++ host ++ ": time=" ++ t ++ " ms\n"
          stderrText := "", command := some cmd }
      | none =>
        match regexSearchAvg result with
        | some t =>
          { exitCode := 0
            stdoutText := "Reply from " ++ host ++ ": time=" ++ t ++ " ms (avg)\n"
            stderrText := "", command := some cmd }
        | none =>
          { exitCode := 2
            stdoutText := "No reply / unable to parse time. Raw output:\n" ++ result ++ "\n"
            stderrText := "", command := some cmd }

end PingWrapper

namespace IcmpCore

/-!
## The specified native ICMP echo core

The specification replaces the wrapper by a native ICMP echo engine (packet
codec, socket transport, echo session).  That engine has no implementation in
the repository, so every definition in this namespace is modelled from the
specification's words.  Bytes are `Nat` values below 256, timestamps are `Int`.
-/

/-- Modelled from the spec: fold the end-around carries of a one's-complement
sum until the value fits in 16 bits.  The first argument is fuel; the caller
passes the sum itself, which always suffices because each carry-folding step
strictly decreases a value that is `≥ 2^16`. -/
def onesFoldAux : Nat → Nat → Nat
  | 0, s => s
  | fuel + 1, s => if s < 65536 then s else onesFoldAux fuel (s % 65536 + s / 65536)

def onesFold (s : Nat) : Nat := onesFoldAux s s

/-- Modelled from the spec: sum of the big-endian 16-bit words of a byte
string, a trailing odd byte padded with zero. -/
def wordSum16 : List Nat → Nat
  | [] => 0
  | [b] => b * 256
  | b1 :: b2 :: rest => b1 * 256 + b2 + wordSum16 rest

/-- Modelled from the spec: the 16-bit one's-complement checksum of a byte
string (RFC 1071): one's-complement sum of the 16-bit words, complemented. -/
def icmpChecksum (bytes : List Nat) : Nat := 65535 - onesFold (wordSum16 bytes)

/-- High byte of a 16-bit word. -/
def hi16 (w : Nat) : Nat := w / 256 % 256

/-- Low byte of a 16-bit word. -/
def lo16 (w : Nat) : Nat := w % 256

/-- Modelled from the spec: configured maximum payload size (1472 bytes, to
avoid IP fragmentation). -/
def maxPayload : Nat := 1472

inductive EncodingError where
  | PayloadTooLarge
  deriving Repr, DecidableEq

inductive DecodeError where
  | Malformed
  | NotEchoReply
  deriving Repr, DecidableEq

/-- The fields `decode` recovers from an ICMP Echo Reply message. -/
structure EchoReplyMsg where
  identifier : Nat
  sequence : Nat
  payload : List Nat
  deriving Repr, DecidableEq

/-- Modelled from the spec: `encodeEchoRequest(identifier, sequence, payload)`
builds a type=8 (Echo Request), code=0 ICMP message — type, code, checksum,
identifier, sequence (16-bit fields big-endian), then the payload — where the
checksum is computed over header+payload with the checksum field zeroed; it
fails with `EncodingError` if the payload exceeds the configured maximum. -/
def encodeEchoRequest (identifier sequence : Nat) (payload : List Nat) :
    Except EncodingError (List Nat) :=
  if payload.length > maxPayload then .error .PayloadTooLarge
  else
    let zeroed := 8 :: 0 :: 0 :: 0 :: hi16 identifier :: lo16 identifier ::
      hi16 sequence :: lo16 sequence :: payload
    let c := icmpChecksum zeroed
    .ok (8 :: 0 :: hi16 c :: lo16 c :: hi16 identifier :: lo16 identifier ::
      hi16 sequence :: lo16 sequence :: payload)

/-- Modelled from the spec: `decode(bytes)` validates the minimum length (the
8-byte ICMP echo header), verifies the checksum, then checks the type field;
it returns `Malformed` on a length or checksum failure, `NotEchoReply` when
the type is not 0 (Echo Reply), and otherwise the identifier, sequence and
payload. -/
def decode (bytes : List Nat) : Except DecodeError EchoReplyMsg :=
  match bytes with
  | t :: c :: k1 :: k2 :: i1 :: i2 :: s1 :: s2 :: payload =>
    let zeroed := t :: c :: 0 :: 0 :: i1 :: i2 :: s1 :: s2 :: payload
    if k1 * 256 + k2 ≠ icmpChecksum zeroed then .error .Malformed
    else if t ≠ 0 then .error .NotEchoReply
    else .ok ⟨i1 * 256 + i2, s1 * 256 + s2, payload⟩
  | _ => .error .Malformed

/-- Modelled from the spec: the test harness reinterprets the encoder's output
as a reply "with type flipped appropriately": the type byte is set to 0 (Echo
Reply) and the checksum field is recomputed for the modified message. -/
def asReply (bytes : List Nat) : List Nat :=
  let code := bytes.getD 1 0
  let tail := bytes.drop 4
  let c := icmpChecksum (0 :: code :: 0 :: 0 :: tail)
  0 :: code :: hi16 c :: lo16 c :: tail

/-! ### Echo Session state machine -/

inductive FailReason where
  | ClockSkew
  | SendFailure
  deriving Repr, DecidableEq

inductive SessionState where
  | Pending
  | Completed (rtt : Int)
  | TimedOut
  | Failed (reason : FailReason)
  deriving Repr, DecidableEq

/-- The request a Session has on the wire: demultiplexing key and send time. -/
structure EchoRequestM where
  identifier : Nat
  sequence : Nat
  payload : List Nat
  sendTime : Int
  deriving Repr, DecidableEq

/-- Modelled from the spec: the Echo Session receive loop after a successful
send.  The transport's inbound traffic is the list `frames` of
(arrival time, raw bytes) pairs in arrival order.  The session is Pending
while the loop runs; a frame arriving at or after the absolute deadline
`sendTime + timeout` is never seen because `receive` reports `Timeout` first.
A frame that fails to decode, or decodes to a reply whose identifier or
sequence does not match the request, is silently discarded and the loop
continues against the same overall deadline.  A matching reply at time `t`
yields `rtt = t - sendTime`; a negative `rtt` is a clock anomaly reported as
`Failed ClockSkew`, otherwise the session is `Completed rtt`.  The result
pairs the terminal state with the time at which it is reached. -/
def runSession (req : EchoRequestM) (timeout : Int) :
    List (Int × List Nat) → SessionState × Int
  | [] => (.TimedOut, req.sendTime + timeout)
  | (t, raw) :: rest =>
    if req.sendTime + timeout ≤ t then (.TimedOut, req.sendTime + timeout)
    else
      match decode raw with
      | .error _ => runSession req timeout rest
      | .ok reply =>
        if reply.identifier = req.identifier ∧ reply.sequence = req.sequence then
          if t - req.sendTime < 0 then (.Failed .ClockSkew, t)
          else (.Completed (t - req.sendTime), t)
        else runSession req timeout rest

end IcmpCore

namespace PingWrapper

/-! ## Helper lemmas about the wrapper model -/

/-- Unfolding of `pingMain` on a two-element argument vector, unfolded to its four cases. -/
theorem pingMain_two (prog host : String) (cap : String → Option String) :
    pingMain [prog, host] cap =
      match cap (buildCommand host) with
      | none =>
        { exitCode := 1, stdoutText := ""
          stderrText := "Failed to run ping command\n", command := some (buildCommand host) }
      | some result =>
        match regexSearchTime result with
        | some t =>
          { exitCode := 0
            stdoutText := "Reply from " ++ host ++ ": time=" ++ t ++ " ms\n"
            stderrText := "", command := some (buildCommand host) }
        | none =>
          match regexSearchAvg result with
          | some t =>
            { exitCode := 0
              stdoutText := "Reply from " ++ host ++ ": time=" ++ t ++ " ms (avg)\n"
              stderrText := "", command := some (buildCommand host) }
          | none =>
            { exitCode := 2
              stdoutText := "No reply / unable to parse time. Raw output:\n" ++ result ++ "\n"
              stderrText := "", command := some (buildCommand host) } := by
  simp [pingMain]

/-- C10: for every argument vector and every captured output of the spawned
command, the program exits with 0, 1 or 2 and no other value: 1 exactly when
the argument count is not 2 or `popen` fails, 0 exactly when one of the two
regexes matches the captured output, and 2 otherwise. -/
theorem exit_code_trichotomy (argv : List String) (cap : String → Option String) :
    ((pingMain argv cap).exitCode = 0 ∨ (pingMain argv cap).exitCode = 1 ∨
      (pingMain argv cap).exitCode = 2) ∧
    ((pingMain argv cap).exitCode = 1 ↔
      argv.length ≠ 2 ∨ cap (buildCommand (argv.getD 1 "")) = none) ∧
    ((pingMain argv cap).exitCode = 0 ↔
      argv.length = 2 ∧ ∃ r, cap (buildCommand (argv.getD 1 "")) = some r ∧
        ((regexSearchTime r).isSome ∨ (regexSearchAvg r).isSome)) ∧
    ((pingMain argv cap).exitCode = 2 ↔
      argv.length = 2 ∧ ∃ r, cap (buildCommand (argv.getD 1 "")) = some r ∧
        regexSearchTime r = none ∧ regexSearchAvg r = none) := by
  rcases argv with _ | ⟨a, _ | ⟨b, _ | ⟨c, tl⟩⟩⟩
  · simp [pingMain]
  · simp [pingMain]
  · rw [pingMain_two]
    cases hc : cap (buildCommand b) with
    | none => simp [List.getD, hc]
    | some r =>
      cases ht : regexSearchTime r with
      | some t => simp [List.getD, hc, ht]
      | none =>
        cases ha : regexSearchAvg r with
        | some t => simp [List.getD, hc, ht, ha]
        | none => simp [List.getD, hc, ht, ha]
  · have hne : (a :: b :: c :: tl).length ≠ 2 := by simp
    simp [pingMain, hne]

/-- C8: the shell command the program executes for host `h` is exactly the
concatenation `"ping -c 1 " + h + " 2>&1"`; `h` is interpolated verbatim,
character for character, with no quoting, escaping or validation. -/
theorem command_verbatim_interpolation (prog host : String) (cap : String → Option String) :
    (pingMain [prog, host] cap).command = some (buildCommand host) ∧
    buildCommand host = "ping -c 1 " ++ host ++ " 2>&1" ∧
    (buildCommand host).data = "ping -c 1 ".data ++ host.data ++ " 2>&1".data := by
  refine ⟨?_, rfl, ?_⟩
  · rw [pingMain_two]
    cases hc : cap (buildCommand host) with
    | none => simp
    | some r =>
      cases ht : regexSearchTime r with
      | some t => simp [ht]
      | none =>
        cases ha : regexSearchAvg r with
        | some t => simp [ht, ha]
        | none => simp [ht, ha]
  · cases host with
    | mk d => rfl

/-- C9: the `time=<number> ms` pattern has priority over `Average = <number>ms`:
when the first pattern matches, the whole observable outcome of the run is
determined by its capture alone (exit 0, no ` (avg)` suffix), whatever the
second pattern would do; the second pattern decides the outcome only when the
first finds no match, and its capture is printed with the extra ` (avg)`. -/
theorem time_pattern_priority (prog host r t : String) (cap : String → Option String)
    (hc : cap (buildCommand host) = some r) :
    (regexSearchTime r = some t →
      pingMain [prog, host] cap =
        { exitCode := 0
          stdoutText := "Reply from " ++ host ++ ": time=" ++ t ++ " ms\n"
          stderrText := "", command := some (buildCommand host) }) ∧
    (regexSearchTime r = none → regexSearchAvg r = some t →
      pingMain [prog, host] cap =
        { exitCode := 0
          stdoutText := "Reply from " ++ host ++ ": time=" ++ t ++ " ms (avg)\n"
          stderrText := "", command := some (buildCommand host) }) := by
  rw [pingMain_two]
  constructor
  · intro ht; simp only [hc, ht]
  · intro ht ha; simp only [hc, ht, ha]

/-- Witness for C9 on a captured output that matches both patterns: the
printed value is the one from the `time=` pattern and carries no ` (avg)`. -/
theorem time_pattern_priority_witness :
    (regexSearchAvg "time=1 msAverage = 2ms").isSome ∧
    pingMain ["p", "h"] (fun _ => some "time=1 msAverage = 2ms") =
      { exitCode := 0
        stdoutText := "Reply from " ++ "h" ++ ": time=" ++ "1" ++ " ms\n"
        stderrText := "", command := some (buildCommand "h") } :=
  ⟨by decide,
   (time_pattern_priority "p" "h" "time=1 msAverage = 2ms" "1"
      (fun _ => some "time=1 msAverage = 2ms") rfl).1 (by decide)⟩

/-- C7 counterexample: a run that succeeds through the fallback `Average`
pattern exits 0 but prints `Reply from h: time=42 ms (avg)`, not the line
`Reply from h: time=42 ms` the claim promises for every success. -/
theorem success_line_avg_counterexample :
    (pingMain ["p", "h"] (fun _ => some "Average = 42ms")).exitCode = 0 ∧
    (pingMain ["p", "h"] (fun _ => some "Average = 42ms")).stdoutText ≠
      "Reply from h: time=42 ms\n" ∧
    (pingMain ["p", "h"] (fun _ => some "Average = 42ms")).stdoutText =
      "Reply from h: time=42 ms (avg)\n" := by
  decide

/-- C7 (amended): on a successful measurement the printed line is
`Reply from <host>: time=<n> ms` when the value was extracted by the primary
`time=` pattern, and `Reply from <host>: time=<n> ms (avg)` when it came from
the fallback `Average` pattern. -/
theorem success_line_format (prog host r : String) (cap : String → Option String)
    (hc : cap (buildCommand host) = some r) :
    (∀ t, regexSearchTime r = some t →
      (pingMain [prog, host] cap).stdoutText =
        "Reply from " ++ host ++ ": time=" ++ t ++ " ms\n") ∧
    (∀ t, regexSearchTime r = none → regexSearchAvg r = some t →
      (pingMain [prog, host] cap).stdoutText =
        "Reply from " ++ host ++ ": time=" ++ t ++ " ms (avg)\n") := by
  rw [pingMain_two]
  constructor
  · intro t ht; simp only [hc, ht]
  · intro t ht ha; simp only [hc, ht, ha]

/-- Witness for the amended C7: one concrete success through each pattern. -/
theorem success_line_format_witness :
    (pingMain ["p", "h"] (fun _ => some "time=7 ms")).stdoutText =
      "Reply from " ++ "h" ++ ": time=" ++ "7" ++ " ms\n" ∧
    (pingMain ["p", "h"] (fun _ => some "Average = 9ms")).stdoutText =
      "Reply from " ++ "h" ++ ": time=" ++ "9" ++ " ms (avg)\n" :=
  ⟨(success_line_format "p" "h" "time=7 ms" (fun _ => some "time=7 ms") rfl).1
      "7" (by decide),
   (success_line_format "p" "h" "Average = 9ms" (fun _ => some "Average = 9ms") rfl).2
      "9" (by decide) (by decide)⟩

/-- C1 counterexample: when the host cannot be resolved, `popen` itself still
succeeds and the captured output is the resolver error text printed by `ping`;
no time pattern matches, so the program exits 2 — the same code as "no
reply" — and not the claimed setup-failure code 1. -/
theorem resolution_failure_exit_counterexample :
    (pingMain ["ping_cmd", "nohost.invalid"]
      (fun _ => some "ping: nohost.invalid: Name or service not known\n")).exitCode = 2 ∧
    (pingMain ["ping_cmd", "nohost.invalid"]
      (fun _ => some "ping: nohost.invalid: Name or service not known\n")).exitCode ≠ 1 := by
  decide

/-- C1 (amended): the exit code is 0 when a time value is parsed from the
captured output, 1 only on wrong argument count or failure to start the ping
command, and 2 when no time value could be parsed — which covers both "no
reply" and a host that cannot be resolved, so only the usage/popen setup
failures get a code distinct from the no-reply code. -/
theorem exit_code_mapping (prog host r : String) (cap : String → Option String) :
    (∀ argv : List String, argv.length ≠ 2 → (pingMain argv cap).exitCode = 1) ∧
    (cap (buildCommand host) = none → (pingMain [prog, host] cap).exitCode = 1) ∧
    (cap (buildCommand host) = some r → (regexSearchTime r).isSome →
      (pingMain [prog, host] cap).exitCode = 0) ∧
    (cap (buildCommand host) = some r → regexSearchTime r = none →
      (regexSearchAvg r).isSome → (pingMain [prog, host] cap).exitCode = 0) ∧
    (cap (buildCommand host) = some r → regexSearchTime r = none →
      regexSearchAvg r = none → (pingMain [prog, host] cap).exitCode = 2) ∧
    (1 : Nat) ≠ 2 := by
  refine ⟨?_, ?_, ?_, ?_, ?_, by decide⟩
  · intro argv hlen
    simp [pingMain, hlen]
  · intro hc
    rw [pingMain_two]
    simp only [hc]
  · intro hc ht
    rw [pingMain_two]
    obtain ⟨t, ht'⟩ := Option.isSome_iff_exists.mp ht
    simp only [hc, ht']
  · intro hc ht ha
    rw [pingMain_two]
    obtain ⟨t, ha'⟩ := Option.isSome_iff_exists.mp ha
    simp only [hc, ht, ha']
  · intro hc ht ha
    rw [pingMain_two]
    simp only [hc, ht, ha]

/-- Witness for the amended C1: every exit code path at a concrete input. -/
theorem exit_code_mapping_witness :
    (pingMain ["p"] (fun _ => none)).exitCode = 1 ∧
    (pingMain ["p", "q"] (fun _ => none)).exitCode = 1 ∧
    (pingMain ["p", "q"] (fun _ => some "time=3 ms")).exitCode = 0 ∧
    (pingMain ["p", "q"] (fun _ => some "nope")).exitCode = 2 :=
  ⟨(exit_code_mapping "p" "q" "x" (fun _ => none)).1 ["p"] (by decide),
   (exit_code_mapping "p" "q" "x" (fun _ => none)).2.1 rfl,
   (exit_code_mapping "p" "q" "time=3 ms" (fun _ => some "time=3 ms")).2.2.1 rfl (by decide),
   (exit_code_mapping "p" "q" "nope" (fun _ => some "nope")).2.2.2.2.1 rfl
     (by decide) (by decide)⟩

end PingWrapper

namespace IcmpCore

/-! ## Helper lemmas about the ICMP core -/

/-- Recombining the two big-endian bytes of a 16-bit word gives the word back. -/
theorem word16_split (w : Nat) (h : w < 65536) : hi16 w * 256 + lo16 w = w := by
  unfold hi16 lo16
  omega

/-- The checksum always fits in 16 bits. -/
theorem icmpChecksum_lt (bytes : List Nat) : icmpChecksum bytes < 65536 := by
  unfold icmpChecksum
  omega

/-- Inversion: a session run that ends `Completed r` consumed some frame that
arrived strictly before the deadline, decoded successfully, and matched the
request's identifier and sequence; moreover `r` is that frame's arrival time
minus the send time and is nonnegative. -/
theorem runSession_completed_inv (req : EchoRequestM) (timeout : Int)
    (frames : List (Int × List Nat)) (r : Int)
    (h : (runSession req timeout frames).1 = .Completed r) :
    ∃ t raw reply, (t, raw) ∈ frames ∧ decode raw = .ok reply ∧
      reply.identifier = req.identifier ∧ reply.sequence = req.sequence ∧
      t < req.sendTime + timeout ∧ r = t - req.sendTime ∧ 0 ≤ r := by
  induction frames with
  | nil => simp [runSession] at h
  | cons f rest ih =>
    obtain ⟨t, raw⟩ := f
    rw [runSession] at h
    by_cases hd : req.sendTime + timeout ≤ t
    · rw [if_pos hd] at h
      simp at h
    · rw [if_neg hd] at h
      split at h
      · obtain ⟨t', raw', reply', hmem, hrec⟩ := ih h
        exact ⟨t', raw', reply', List.mem_cons_of_mem _ hmem, hrec⟩
      · rename_i reply hdec
        by_cases hm : reply.identifier = req.identifier ∧ reply.sequence = req.sequence
        · rw [if_pos hm] at h
          by_cases hneg : t - req.sendTime < 0
          · rw [if_pos hneg] at h
            simp at h
          · rw [if_neg hneg] at h
            simp at h
            exact ⟨t, raw, reply, List.mem_cons_self _ _, hdec, hm.1, hm.2,
              by omega, by omega, by omega⟩
        · rw [if_neg hm] at h
          obtain ⟨t', raw', reply', hmem, hrec⟩ := ih h
          exact ⟨t', raw', reply', List.mem_cons_of_mem _ hmem, hrec⟩

/-- A run over frames none of which decodes to a matching reply times out
exactly at the deadline. -/
theorem runSession_no_match (req : EchoRequestM) (timeout : Int)
    (frames : List (Int × List Nat))
    (h : ∀ t raw, (t, raw) ∈ frames → ∀ reply, decode raw = .ok reply →
      ¬(reply.identifier = req.identifier ∧ reply.sequence = req.sequence)) :
    runSession req timeout frames = (.TimedOut, req.sendTime + timeout) := by
  induction frames with
  | nil => rfl
  | cons f rest ih =>
    obtain ⟨t, raw⟩ := f
    rw [runSession]
    have hrest : ∀ t' raw', (t', raw') ∈ rest → ∀ reply, decode raw' = .ok reply →
        ¬(reply.identifier = req.identifier ∧ reply.sequence = req.sequence) :=
      fun t' raw' hmem => h t' raw' (List.mem_cons_of_mem _ hmem)
    by_cases hd : req.sendTime + timeout ≤ t
    · rw [if_pos hd]
    · rw [if_neg hd]
      split
      · exact ih hrest
      · rename_i reply hdec
        rw [if_neg (h t raw (List.mem_cons_self _ _) reply hdec)]
        exact ih hrest

/-- C2: an EchoReply is accepted as the answer to a Session only if its
identifier and sequence both match the request (the Session being still
Pending, structurally: the receive loop runs only while no terminal state
was reached); every other reply is ignored, so a run in which no delivered
frame decodes to a matching reply ends `TimedOut` and never `Completed`. -/
theorem reply_matching_invariant :
    (∀ (req : EchoRequestM) (timeout : Int) (frames : List (Int × List Nat)) (r : Int),
      (runSession req timeout frames).1 = .Completed r →
      ∃ t raw reply, (t, raw) ∈ frames ∧ decode raw = .ok reply ∧
        reply.identifier = req.identifier ∧ reply.sequence = req.sequence ∧
        t < req.sendTime + timeout) ∧
    (∀ (req : EchoRequestM) (timeout : Int) (frames : List (Int × List Nat)),
      (∀ t raw, (t, raw) ∈ frames → ∀ reply, decode raw = .ok reply →
        ¬(reply.identifier = req.identifier ∧ reply.sequence = req.sequence)) →
      (runSession req timeout frames).1 = .TimedOut ∧
      ∀ r, (runSession req timeout frames).1 ≠ .Completed r) := by
  constructor
  · intro req timeout frames r h
    obtain ⟨t, raw, reply, hmem, hdec, hid, hseq, hlt, _, _⟩ :=
      runSession_completed_inv req timeout frames r h
    exact ⟨t, raw, reply, hmem, hdec, hid, hseq, hlt⟩
  · intro req timeout frames h
    rw [runSession_no_match req timeout frames h]
    exact ⟨rfl, fun r => by simp⟩

/-- Witness for C2: a request with sequence 2 receives, well before its
deadline, a perfectly valid reply carrying sequence 3; the session times
out rather than completing. -/
theorem reply_matching_invariant_witness :
    decode [0, 0, 255, 251, 0, 1, 0, 3] = .ok ⟨1, 3, []⟩ ∧
    (runSession ⟨1, 2, [], 0⟩ 1000 [(5, [0, 0, 255, 251, 0, 1, 0, 3])]).1 = .TimedOut := by
  refine ⟨rfl, ?_⟩
  have hmm : ∀ t raw, (t, raw) ∈ [((5 : Int), [0, 0, 255, 251, 0, 1, 0, 3])] →
      ∀ reply, decode raw = .ok reply →
      ¬(reply.identifier = (⟨1, 2, [], 0⟩ : EchoRequestM).identifier ∧
        reply.sequence = (⟨1, 2, [], 0⟩ : EchoRequestM).sequence) := by
    intro t raw hmem reply hdec
    simp only [List.mem_singleton, Prod.mk.injEq] at hmem
    rw [hmem.2] at hdec
    rw [show decode [0, 0, 255, 251, 0, 1, 0, 3] =
        Except.ok (⟨1, 3, []⟩ : EchoReplyMsg) from rfl] at hdec
    cases hdec
    decide
  exact (reply_matching_invariant.2 ⟨1, 2, [], 0⟩ 1000
    [(5, [0, 0, 255, 251, 0, 1, 0, 3])] hmm).1

/-- C4: a matching reply arriving at `sendTime + d` with `0 ≤ d < timeout`
completes the session at that moment with `rtt = d`; the rtt of a Completed
session is never negative; and a matching reply whose arrival time precedes
the send time (negative elapsed time) yields `Failed ClockSkew` instead. -/
theorem completed_rtt_correct :
    (∀ (req : EchoRequestM) (timeout d : Int) (raw : List Nat) (reply : EchoReplyMsg)
        (rest : List (Int × List Nat)),
      decode raw = .ok reply → reply.identifier = req.identifier →
      reply.sequence = req.sequence → 0 ≤ d → d < timeout →
      runSession req timeout ((req.sendTime + d, raw) :: rest) =
        (.Completed d, req.sendTime + d)) ∧
    (∀ (req : EchoRequestM) (timeout : Int) (frames : List (Int × List Nat)) (r : Int),
      (runSession req timeout frames).1 = .Completed r → 0 ≤ r) ∧
    (∀ (req : EchoRequestM) (timeout t : Int) (raw : List Nat) (reply : EchoReplyMsg)
        (rest : List (Int × List Nat)),
      decode raw = .ok reply → reply.identifier = req.identifier →
      reply.sequence = req.sequence → t < req.sendTime + timeout →
      t - req.sendTime < 0 →
      runSession req timeout ((t, raw) :: rest) = (.Failed .ClockSkew, t)) := by
  refine ⟨?_, ?_, ?_⟩
  · intro req timeout d raw reply rest hdec hid hseq hd0 hdt
    rw [runSession, if_neg (by omega)]
    simp only [hdec]
    rw [if_pos ⟨hid, hseq⟩, if_neg (by omega)]
    have : req.sendTime + d - req.sendTime = d := by omega
    rw [this]
  · intro req timeout frames r h
    obtain ⟨_, _, _, _, _, _, _, _, _, hr⟩ :=
      runSession_completed_inv req timeout frames r h
    exact hr
  · intro req timeout t raw reply rest hdec hid hseq hlt hneg
    rw [runSession, if_neg (by omega)]
    simp only [hdec]
    rw [if_pos ⟨hid, hseq⟩, if_pos hneg]

/-- Witness for C4: a valid matching reply 5 time units after send completes
with rtt 5; the same reply arriving 6 units before send is a clock skew. -/
theorem completed_rtt_correct_witness :
    runSession ⟨1, 2, [], 0⟩ 1000 [(5, [0, 0, 255, 252, 0, 1, 0, 2])] =
      (.Completed 5, 5) ∧
    runSession ⟨1, 2, [], 10⟩ 1000 [(4, [0, 0, 255, 252, 0, 1, 0, 2])] =
      (.Failed .ClockSkew, 4) := by
  constructor
  · have := (completed_rtt_correct.1 ⟨1, 2, [], 0⟩ 1000 5
      [0, 0, 255, 252, 0, 1, 0, 2] ⟨1, 2, []⟩ [] rfl rfl rfl
      (by decide) (by decide))
    simpa using this
  · exact completed_rtt_correct.2.2 ⟨1, 2, [], 10⟩ 1000 4
      [0, 0, 255, 252, 0, 1, 0, 2] ⟨1, 2, []⟩ [] rfl rfl rfl
      (by decide) (by decide)

/-- C5: a session to which the transport never delivers a matching reply ends
`TimedOut` exactly at `sendTime + timeout` — not before and not after; and a
frame that fails to decode never terminates the session: it is discarded and
the receive loop continues against the same overall deadline. -/
theorem timeout_exactly_at_deadline :
    (∀ (req : EchoRequestM) (timeout : Int) (frames : List (Int × List Nat)),
      (∀ t raw, (t, raw) ∈ frames → ∀ reply, decode raw = .ok reply →
        ¬(reply.identifier = req.identifier ∧ reply.sequence = req.sequence)) →
      runSession req timeout frames = (.TimedOut, req.sendTime + timeout)) ∧
    (∀ (req : EchoRequestM) (timeout t : Int) (raw : List Nat) (e : DecodeError)
        (rest : List (Int × List Nat)),
      decode raw = .error e → t < req.sendTime + timeout →
      runSession req timeout ((t, raw) :: rest) = runSession req timeout rest) := by
  constructor
  · exact runSession_no_match
  · intro req timeout t raw e rest hdec hlt
    rw [runSession, if_neg (by omega)]
    simp only [hdec]

/-- Witness for C5: two unmatchable frames (one too short to decode, one with
a bad checksum) leave the session timing out exactly at the deadline, and the
undecodable frame is transparently discarded. -/
theorem timeout_exactly_at_deadline_witness :
    runSession ⟨1, 2, [], 0⟩ 1000 [(5, [1, 2, 3]), (700, [0, 0, 0, 0, 0, 0, 0, 0])] =
      (.TimedOut, 1000) ∧
    runSession ⟨1, 2, [], 0⟩ 1000 [(5, [1, 2, 3])] = runSession ⟨1, 2, [], 0⟩ 1000 [] := by
  constructor
  · have hmm : ∀ t raw,
        (t, raw) ∈ [((5 : Int), [1, 2, 3]), ((700 : Int), [0, 0, 0, 0, 0, 0, 0, 0])] →
        ∀ reply, decode raw = .ok reply →
        ¬(reply.identifier = (⟨1, 2, [], 0⟩ : EchoRequestM).identifier ∧
          reply.sequence = (⟨1, 2, [], 0⟩ : EchoRequestM).sequence) := by
      intro t raw hmem reply hdec
      simp only [List.mem_cons, List.not_mem_nil, or_false, Prod.mk.injEq] at hmem
      rcases hmem with ⟨_, h2⟩ | ⟨_, h2⟩
      · rw [h2] at hdec
        rw [show decode [1, 2, 3] = Except.error DecodeError.Malformed from rfl] at hdec
        simp at hdec
      · rw [h2] at hdec
        rw [show decode [0, 0, 0, 0, 0, 0, 0, 0] =
            Except.error DecodeError.Malformed from rfl] at hdec
        simp at hdec
    have := timeout_exactly_at_deadline.1 ⟨1, 2, [], 0⟩ 1000
      [(5, [1, 2, 3]), (700, [0, 0, 0, 0, 0, 0, 0, 0])] hmm
    simpa using this
  · exact timeout_exactly_at_deadline.2 ⟨1, 2, [], 0⟩ 1000 5 [1, 2, 3]
      .Malformed [] rfl (by decide)

/-- C6: any byte string shorter than the 8-byte minimum ICMP header decodes to
`Malformed` (and `decode`, being total, never crashes); a stored checksum that
does not match the one recomputed over the checksum-zeroed message also gives
`Malformed`; and a well-checksummed message whose type field is not 0 gives
`NotEchoReply`. -/
theorem decode_error_classification :
    (∀ bytes : List Nat, bytes.length < 8 → decode bytes = .error .Malformed) ∧
    (∀ t c k1 k2 i1 i2 s1 s2 : Nat, ∀ p : List Nat,
      k1 * 256 + k2 ≠ icmpChecksum (t :: c :: 0 :: 0 :: i1 :: i2 :: s1 :: s2 :: p) →
      decode (t :: c :: k1 :: k2 :: i1 :: i2 :: s1 :: s2 :: p) = .error .Malformed) ∧
    (∀ t c k1 k2 i1 i2 s1 s2 : Nat, ∀ p : List Nat,
      k1 * 256 + k2 = icmpChecksum (t :: c :: 0 :: 0 :: i1 :: i2 :: s1 :: s2 :: p) →
      t ≠ 0 →
      decode (t :: c :: k1 :: k2 :: i1 :: i2 :: s1 :: s2 :: p) = .error .NotEchoReply) := by
  refine ⟨?_, ?_, ?_⟩
  · intro bytes h
    rcases bytes with _|⟨b0,_|⟨b1,_|⟨b2,_|⟨b3,_|⟨b4,_|⟨b5,_|⟨b6,_|⟨b7,rest⟩⟩⟩⟩⟩⟩⟩⟩
    any_goals rfl
    exfalso
    simp only [List.length_cons] at h
    omega
  · intro t c k1 k2 i1 i2 s1 s2 p hck
    simp only [decode]
    rw [if_pos hck]
  · intro t c k1 k2 i1 i2 s1 s2 p hck ht
    simp only [decode]
    rw [if_neg (not_not_intro hck), if_pos ht]

/-- Witness for C6: a 3-byte frame, an 8-byte frame with a wrong checksum,
and a valid Echo Request (type 8) frame, each decoded concretely. -/
theorem decode_error_classification_witness :
    decode [1, 2, 3] = .error .Malformed ∧
    decode [0, 0, 0, 0, 0, 0, 0, 0] = .error .Malformed ∧
    decode [8, 0, 247, 254, 0, 0, 0, 1] = .error .NotEchoReply :=
  ⟨decode_error_classification.1 [1, 2, 3] (by decide),
   decode_error_classification.2.1 0 0 0 0 0 0 0 0 [] (by decide),
   decode_error_classification.2.2 8 0 247 254 0 0 0 1 [] (by decide) (by decide)⟩

/-- C3: for every identifier and sequence below 2^16 and every byte payload of
at most the configured maximum length, encoding succeeds and decoding the
encoder's output, reinterpreted as a reply with the type flipped from Echo
Request to Echo Reply, recovers identifier, sequence and payload exactly. -/
theorem encode_decode_roundtrip (identifier sequence : Nat) (payload : List Nat)
    (hid : identifier < 65536) (hseq : sequence < 65536)
    (hlen : payload.length ≤ maxPayload) (hbytes : ∀ b ∈ payload, b < 256) :
    ∃ bytes, encodeEchoRequest identifier sequence payload = .ok bytes ∧
      decode (asReply bytes) = .ok ⟨identifier, sequence, payload⟩ := by
  refine ⟨8 :: 0 ::
    hi16 (icmpChecksum (8 :: 0 :: 0 :: 0 :: hi16 identifier :: lo16 identifier ::
      hi16 sequence :: lo16 sequence :: payload)) ::
    lo16 (icmpChecksum (8 :: 0 :: 0 :: 0 :: hi16 identifier :: lo16 identifier ::
      hi16 sequence :: lo16 sequence :: payload)) ::
    hi16 identifier :: lo16 identifier :: hi16 sequence :: lo16 sequence :: payload,
    ?_, ?_⟩
  · unfold encodeEchoRequest
    rw [if_neg (by omega)]
  · unfold asReply
    simp only [List.getD_cons_succ, List.getD_cons_zero, List.drop_succ_cons,
      List.drop_zero]
    simp only [decode]
    rw [if_neg (not_not_intro (word16_split _ (icmpChecksum_lt _))),
      if_neg (not_not_intro rfl)]
    rw [word16_split identifier hid, word16_split sequence hseq]

/-- Witness for C3: a concrete round trip at identifier 258, sequence 5,
payload `[1, 2, 3]`. -/
theorem encode_decode_roundtrip_witness :
    ∃ bytes, encodeEchoRequest 258 5 [1, 2, 3] = .ok bytes ∧
      decode (asReply bytes) = .ok ⟨258, 5, [1, 2, 3]⟩ :=
  encode_decode_roundtrip 258 5 [1, 2, 3] (by decide) (by decide) (by decide)
    (by decide)

end IcmpCore
